import Mathlib

/-!
Verification of the user-lifecycle reconciliation engine of the
Usermanagement repository.  The authoritative logic lives in the SQL setup
scripts (`FINAL_COMPLETE_DATABASE_SETUP.sql`, `COMPLETE_DATABASE_SETUP.sql`)
and in the enterprise enhancement script; this file gives a shallow
embedding of the tables and of the PL/pgSQL functions the claims are about,
and proves the claimed properties of that embedding.

Timestamps are modelled as `Int` seconds; the SQL `interval '1 day'` is the
constant `daySecs = 86400`.  User identifiers and Stripe identifiers are
modelled as `Nat`; the hard-coded super-admin UUID
b8782453-a343-4301-a947-67c5bb407d2b is the constant `superAdminId` (its hex
value as a natural number).  Each SQL `UPDATE <table> SET ... WHERE ...`
statement becomes a per-row function mapped over the table: the `WHERE`
conditions of these updates read only the row itself and the stripe tables,
which the updates never modify, so the per-row factoring is exact.
-/

namespace Usermanagement

/-- The hard-coded protected administrative identity
(UUID b8782453-a343-4301-a947-67c5bb407d2b) as a natural number. -/
def superAdminId : Nat := 0xb8782453a3434301a94767c5bb407d2b

/-- One day in seconds, the SQL `interval '1 day'`. -/
def daySecs : Int := 86400

/-- The `stripe_subscription_status` enum of the setup scripts. -/
inductive SubStatus
  | incomplete
  | incomplete_expired
  | trialing
  | active
  | past_due
  | canceled
  | unpaid
  deriving DecidableEq, Repr

/-- The `trial_status` enum of the setup scripts. -/
inductive TrialStatus
  | active
  | expired
  | converted_to_paid
  | scheduled_for_deletion
  deriving DecidableEq, Repr

/-- The `account_status` enum of FINAL_COMPLETE_DATABASE_SETUP.sql. -/
inductive AccountStatus
  | active
  | trial
  | expired
  | suspended
  | deleted
  deriving DecidableEq, Repr

/-- The `access_level` enum of FINAL_COMPLETE_DATABASE_SETUP.sql. -/
inductive AccessLevel
  | none
  | trial
  | basic
  | pro
  | enterprise
  deriving DecidableEq, Repr

/-- A row of `user_trials`. -/
structure UserTrial where
  user_id : Nat
  trial_end_date : Int
  trial_status : TrialStatus
  deletion_scheduled_at : Option Int
  updated_at : Int
  deriving DecidableEq, Repr

/-- A row of `stripe_customers`. -/
structure StripeCustomer where
  user_id : Nat
  customer_id : Nat
  deleted_at : Option Int
  deriving DecidableEq, Repr

/-- A row of `stripe_subscriptions`. -/
structure StripeSubscription where
  customer_id : Nat
  status : SubStatus
  deleted_at : Option Int
  created_at : Int
  deriving DecidableEq, Repr

/-- A row of `axie_studio_accounts` (only the columns the claims mention). -/
structure AxieAccount where
  user_id : Nat
  deleted_at : Option Int
  deriving DecidableEq, Repr

/-- A row of `user_account_state`, restricted to the key and to the columns
written by the `sync_user_state` function of
FINAL_COMPLETE_DATABASE_SETUP.sql. -/
structure UserAccountState where
  user_id : Nat
  account_status : AccountStatus
  access_level : AccessLevel
  has_access : Bool
  trial_days_remaining : Nat
  stripe_status : Option SubStatus
  updated_at : Int
  deriving DecidableEq, Repr

/-- The repeated SQL subquery
`SELECT DISTINCT c.user_id FROM stripe_customers c JOIN stripe_subscriptions s
ON c.customer_id = s.customer_id WHERE s.status IN ('active','trialing') AND
s.deleted_at IS NULL AND c.deleted_at IS NULL`: the user has a non-tombstoned
customer row joined to a non-tombstoned subscription whose status is active
or trialing. -/
def HasActiveSubscription (cs : List StripeCustomer) (ss : List StripeSubscription)
    (uid : Nat) : Prop :=
  ∃ c ∈ cs, c.user_id = uid ∧ c.deleted_at = none ∧
    ∃ s ∈ ss, s.customer_id = c.customer_id ∧ s.deleted_at = none ∧
      (s.status = SubStatus.active ∨ s.status = SubStatus.trialing)

instance (cs : List StripeCustomer) (ss : List StripeSubscription) (uid : Nat) :
    Decidable (HasActiveSubscription cs ss uid) := by
  unfold HasActiveSubscription
  infer_instance

/-- Strict comparison of an optional timestamp against a bound, as SQL
evaluates `deletion_scheduled_at < now()`: a NULL value never satisfies the
comparison. -/
def optLt (o : Option Int) (x : Int) : Prop :=
  match o with
  | some d => d < x
  | none => False

instance (o : Option Int) (x : Int) : Decidable (optLt o x) :=
  match o with
  | some d => inferInstanceAs (Decidable (d < x))
  | none => inferInstanceAs (Decidable False)

/-- First UPDATE of `sync_subscription_status`
(FINAL_COMPLETE_DATABASE_SETUP.sql, lines 459-473): trials of users with an
active subscription and a not-yet-converted status are marked
`converted_to_paid` with `deletion_scheduled_at` cleared. -/
def convert_paid_update (cs : List StripeCustomer) (ss : List StripeSubscription)
    (now : Int) (t : UserTrial) : UserTrial :=
  if HasActiveSubscription cs ss t.user_id ∧ t.trial_status ≠ TrialStatus.converted_to_paid then
    { t with trial_status := TrialStatus.converted_to_paid,
             deletion_scheduled_at := none, updated_at := now }
  else t

/-- Second UPDATE of `sync_subscription_status`
(FINAL_COMPLETE_DATABASE_SETUP.sql, lines 475-493): an active trial strictly
past its end date, belonging neither to the super admin nor to a user with an
active subscription, becomes `expired` with deletion scheduled one day out. -/
def expire_update (cs : List StripeCustomer) (ss : List StripeSubscription)
    (now : Int) (t : UserTrial) : UserTrial :=
  if t.trial_end_date < now ∧ t.trial_status = TrialStatus.active ∧
      t.user_id ≠ superAdminId ∧ ¬ HasActiveSubscription cs ss t.user_id then
    { t with trial_status := TrialStatus.expired,
             deletion_scheduled_at := some (now + daySecs), updated_at := now }
  else t

/-- Third UPDATE of `sync_subscription_status`
(FINAL_COMPLETE_DATABASE_SETUP.sql, lines 495-513): an expired trial whose
scheduled deletion time is strictly in the past, belonging neither to the
super admin nor to a user with an active subscription, becomes
`scheduled_for_deletion`. -/
def schedule_deletion_update (cs : List StripeCustomer) (ss : List StripeSubscription)
    (now : Int) (t : UserTrial) : UserTrial :=
  if t.trial_status = TrialStatus.expired ∧ optLt t.deletion_scheduled_at now ∧
      t.user_id ≠ superAdminId ∧ ¬ HasActiveSubscription cs ss t.user_id then
    { t with trial_status := TrialStatus.scheduled_for_deletion, updated_at := now }
  else t

/-- The `sync_subscription_status` function of
FINAL_COMPLETE_DATABASE_SETUP.sql (lines 453-515), acting on one
`user_trials` row: its three UPDATE statements run in order. -/
def sync_subscription_status (cs : List StripeCustomer) (ss : List StripeSubscription)
    (now : Int) (t : UserTrial) : UserTrial :=
  schedule_deletion_update cs ss now
    (expire_update cs ss now (convert_paid_update cs ss now t))

/-- The `protect_paying_customers` function
(FINAL_COMPLETE_DATABASE_SETUP.sql, lines 518-540), acting on one row:
trials of paying users that are `expired` or `scheduled_for_deletion` are
reset to `converted_to_paid` with the deletion schedule cleared. -/
def protect_paying_customers (cs : List StripeCustomer) (ss : List StripeSubscription)
    (now : Int) (t : UserTrial) : UserTrial :=
  if HasActiveSubscription cs ss t.user_id ∧
      (t.trial_status = TrialStatus.expired ∨
        t.trial_status = TrialStatus.scheduled_for_deletion) then
    { t with trial_status := TrialStatus.converted_to_paid,
             deletion_scheduled_at := none, updated_at := now }
  else t

/-- The `check_expired_trials` function
(FINAL_COMPLETE_DATABASE_SETUP.sql, lines 607-622), acting on one row:
`protect_paying_customers` followed by `sync_subscription_status`. -/
def check_row (cs : List StripeCustomer) (ss : List StripeSubscription)
    (now : Int) (t : UserTrial) : UserTrial :=
  sync_subscription_status cs ss now (protect_paying_customers cs ss now t)

/-- The `mark_trial_converted` function
(FINAL_COMPLETE_DATABASE_SETUP.sql, lines 775-785), acting on the targeted
user's row. -/
def mark_trial_converted (now : Int) (t : UserTrial) : UserTrial :=
  { t with trial_status := TrialStatus.converted_to_paid,
           deletion_scheduled_at := none, updated_at := now }

/-- The `get_users_for_deletion` function of
FINAL_COMPLETE_DATABASE_SETUP.sql (lines 576-604): rows that are
`scheduled_for_deletion`, are not the super admin, have no active
subscription, and whose trial ended more than one day ago. -/
def get_users_for_deletion (cs : List StripeCustomer) (ss : List StripeSubscription)
    (now : Int) (trials : List UserTrial) : List UserTrial :=
  trials.filter fun t =>
    decide (t.trial_status = TrialStatus.scheduled_for_deletion ∧
      t.user_id ≠ superAdminId ∧
      ¬ HasActiveSubscription cs ss t.user_id ∧
      t.trial_end_date < now - daySecs)

/-- The `verify_user_protection` function of
FINAL_COMPLETE_DATABASE_SETUP.sql (lines 788-825), reduced to its
`is_protected` column: true when the user is the super admin, or when some
customer row of the user (the query does not filter on
`stripe_customers.deleted_at`) joins to a non-tombstoned subscription whose
status is active or trialing. -/
def verify_user_protection (cs : List StripeCustomer) (ss : List StripeSubscription)
    (uid : Nat) : Bool :=
  if uid = superAdminId then true
  else cs.any fun c => decide (c.user_id = uid) &&
    ss.any fun s => decide (s.customer_id = c.customer_id) && s.deleted_at.isNone &&
      (decide (s.status = SubStatus.active) || decide (s.status = SubStatus.trialing))

/-- The Protection Guard as the specification words it: protected iff the
identity is the fixed administrative identity, or the user has a billing
linkage whose (live, non-tombstoned) subscription status is active or
trialing. -/
def IsProtectedSpec (cs : List StripeCustomer) (ss : List StripeSubscription)
    (uid : Nat) : Prop :=
  uid = superAdminId ∨
    ∃ c ∈ cs, c.user_id = uid ∧
      ∃ s ∈ ss, s.customer_id = c.customer_id ∧ s.deleted_at = none ∧
        (s.status = SubStatus.active ∨ s.status = SubStatus.trialing)

/-- Keep the later-created of an accumulated subscription candidate and a
new one (the comparison behind `ORDER BY ss.created_at DESC LIMIT 1`). -/
def newer (best : Option StripeSubscription) (s : StripeSubscription) :
    Option StripeSubscription :=
  match best with
  | none => some s
  | some b => if b.created_at < s.created_at then some s else some b

/-- The most recently created non-tombstoned subscription of a customer:
the `ORDER BY ss.created_at DESC LIMIT 1` row of the `sync_user_state`
query (FINAL_COMPLETE_DATABASE_SETUP.sql, lines 936-946). -/
def latest_subscription (ss : List StripeSubscription) (cid : Nat) :
    Option StripeSubscription :=
  (ss.filter fun s => decide (s.customer_id = cid) && s.deleted_at.isNone).foldl newer none

/-- The `v_trial_days` computation of `sync_user_state`
(FINAL_COMPLETE_DATABASE_SETUP.sql, lines 948-956):
`EXTRACT(days FROM trial_end_date - now())` when the end date is in the
future, and 0 otherwise (also when the user has no trial row). -/
def trial_days_left (trial : Option UserTrial) (now : Int) : Nat :=
  match trial with
  | some t => if now < t.trial_end_date then (t.trial_end_date - now).toNat / 86400 else 0
  | none => 0

/-- The `sync_user_state` function of FINAL_COMPLETE_DATABASE_SETUP.sql
(lines 921-993): recompute and overwrite the derived `user_account_state`
row of one user from the live trial and stripe rows.  `v_has_subscription`
and the stored status come from the single latest subscription row of the
user's customer; a missing customer, or a customer with no live
subscription, yields false and a NULL status. -/
def sync_user_state (cs : List StripeCustomer) (ss : List StripeSubscription)
    (trials : List UserTrial) (now : Int) (uid : Nat)
    (accounts : List UserAccountState) : List UserAccountState :=
  let sub := (cs.find? fun c => decide (c.user_id = uid)).bind
    fun c => latest_subscription ss c.customer_id
  let v_has_subscription : Bool :=
    match sub with
    | some s => decide (s.status = SubStatus.active) || decide (s.status = SubStatus.trialing)
    | none => false
  let v_trial_days := trial_days_left (trials.find? fun t => decide (t.user_id = uid)) now
  accounts.map fun a =>
    if a.user_id = uid then
      { user_id := a.user_id
        account_status :=
          if v_has_subscription then AccountStatus.active
          else if 0 < v_trial_days then AccountStatus.trial else AccountStatus.expired
        access_level :=
          if v_has_subscription then AccessLevel.pro
          else if 0 < v_trial_days then AccessLevel.trial else AccessLevel.none
        has_access := v_has_subscription || decide (0 < v_trial_days)
        trial_days_remaining := v_trial_days
        stripe_status := sub.map fun s => s.status
        updated_at := now }
    else a

/-- The failure condition of `sync_user_state`
(FINAL_COMPLETE_DATABASE_SETUP.sql): when the user has a `stripe_customers`
row but no live subscription, the LEFT JOIN row carries a NULL status,
`COALESCE(ss.status::text, 'none')` makes `v_subscription_status` the text
value 'none', and the UPDATE's cast
`v_subscription_status::stripe_subscription_status` raises an invalid-enum
error, aborting the function before anything is written.  With no customer
row at all the SELECT INTO leaves the variable NULL, whose cast is
harmless. -/
def sync_user_state_raises (cs : List StripeCustomer) (ss : List StripeSubscription)
    (uid : Nat) : Bool :=
  match cs.find? fun c => decide (c.user_id = uid) with
  | some c => (latest_subscription ss c.customer_id).isNone
  | none => false

/-- One run of `sync_user_state` with its error path: `none` when the
enum-cast error aborts the run (nothing written), otherwise the rewritten
`user_account_state` table. -/
def sync_user_state_run (cs : List StripeCustomer) (ss : List StripeSubscription)
    (trials : List UserTrial) (now : Int) (uid : Nat)
    (accounts : List UserAccountState) : Option (List UserAccountState) :=
  if sync_user_state_raises cs ss uid then none
  else some (sync_user_state cs ss trials now uid accounts)

/-- The whole database state: the three entity groups plus the derived
summary table. -/
structure DB where
  trials : List UserTrial
  accounts : List UserAccountState
  customers : List StripeCustomer
  subscriptions : List StripeSubscription
  axie_accounts : List AxieAccount
  deriving DecidableEq, Repr

/-- `sync_subscription_status` over the whole `user_trials` table: its three
sequential UPDATE statements, each a pass over the table. -/
def sync_subscription_status_db (now : Int) (db : DB) : DB :=
  let pass1 := db.trials.map (convert_paid_update db.customers db.subscriptions now)
  let pass2 := pass1.map (expire_update db.customers db.subscriptions now)
  let pass3 := pass2.map (schedule_deletion_update db.customers db.subscriptions now)
  { db with trials := pass3 }

/-- `protect_paying_customers` over the whole `user_trials` table. -/
def protect_paying_customers_db (now : Int) (db : DB) : DB :=
  { db with trials := db.trials.map (protect_paying_customers db.customers db.subscriptions now) }

/-- `check_expired_trials` (FINAL_COMPLETE_DATABASE_SETUP.sql, lines
607-622): `protect_paying_customers` then `sync_subscription_status`. -/
def check_expired_trials_db (now : Int) (db : DB) : DB :=
  sync_subscription_status_db now (protect_paying_customers_db now db)

/-- `sync_user_state` as a database operation: its single UPDATE targets
`user_account_state` only. -/
def sync_user_state_db (now : Int) (uid : Nat) (db : DB) : DB :=
  { db with accounts :=
      sync_user_state db.customers db.subscriptions db.trials now uid db.accounts }

/-- One reconciliation run for a user: `check_expired_trials` followed by
`sync_user_state`, as the maintenance flow of
FINAL_COMPLETE_DATABASE_SETUP.sql composes them. -/
def reconcile_user (now : Int) (uid : Nat) (db : DB) : DB :=
  sync_user_state_db now uid (check_expired_trials_db now db)

/-- One reconciliation run with the `sync_user_state` error path: `none`
when the derived-state rewrite aborts on the enum-cast error (so there is
no completed run whose output a caller could observe), otherwise the fully
reconciled state. -/
def reconcile_user_run (now : Int) (uid : Nat) (db : DB) : Option DB :=
  let db1 := check_expired_trials_db now db
  (sync_user_state_run db1.customers db1.subscriptions db1.trials now uid
    db1.accounts).map fun accounts => { db1 with accounts := accounts }

/-- The `on_subscription_change` trigger of
FINAL_COMPLETE_DATABASE_SETUP.sql (lines 1067-1080): look up the changed
subscription's customer and run `sync_user_state` for that user; a missing
customer makes the scalar subquery NULL and the inner UPDATE matches no
row. -/
def on_subscription_change_final (now : Int) (s : StripeSubscription) (db : DB) : DB :=
  match db.customers.find? fun c => decide (c.customer_id = s.customer_id) with
  | some c => sync_user_state_db now c.user_id db
  | none => db

/-- The FINAL `on_subscription_change` trigger with the `sync_user_state`
error path: `none` when the inner run aborts on the enum-cast error,
otherwise the state whose derived table the trigger rewrote. -/
def on_subscription_change_final_run (now : Int) (s : StripeSubscription) (db : DB) :
    Option DB :=
  match db.customers.find? fun c => decide (c.customer_id = s.customer_id) with
  | some c =>
      (sync_user_state_run db.customers db.subscriptions db.trials now c.user_id
        db.accounts).map fun accounts => { db with accounts := accounts }
  | none => some db

/-- The `on_subscription_change` trigger of COMPLETE_DATABASE_SETUP.sql
(lines 522-545): when the new subscription status is active or trialing, the
trial row of the (non-tombstoned) customer's user is marked
`converted_to_paid` with the deletion schedule cleared. -/
def on_subscription_change_complete (now : Int) (s : StripeSubscription) (db : DB) : DB :=
  if s.status = SubStatus.active ∨ s.status = SubStatus.trialing then
    match db.customers.find? fun c =>
        decide (c.customer_id = s.customer_id) && c.deleted_at.isNone with
    | some c =>
        { db with trials := db.trials.map fun t =>
            if t.user_id = c.user_id then mark_trial_converted now t else t }
    | none => db
  else db

/-- The `user_account_status` enum of the enterprise enhancement script. -/
inductive EntAccountStatus
  | trial_active
  | trial_expired
  | subscription_active
  | subscription_trialing
  | subscription_past_due
  | subscription_canceled
  | account_suspended
  | account_deleted
  deriving DecidableEq, Repr

/-- The enterprise `access_level` values (text CHECK constraint). -/
inductive EntAccessLevel
  | trial
  | pro
  | enterprise
  | suspended
  deriving DecidableEq, Repr

/-- The subscription status fetched by the enterprise `sync_user_state`
(part_005, lines 250-261): the first non-tombstoned customer of the user,
left-joined to its first non-tombstoned subscription. -/
def enterprise_sub_status (cs : List StripeCustomer) (ss : List StripeSubscription)
    (uid : Nat) : Option SubStatus :=
  (cs.find? fun c => decide (c.user_id = uid) && c.deleted_at.isNone).bind fun c =>
    (ss.find? fun s => decide (s.customer_id = c.customer_id) && s.deleted_at.isNone).map
      fun s => s.status

/-- The status/access determination of the enterprise `sync_user_state`
(part_005, lines 268-293, identically COMPLETE_DATABASE_SETUP.sql lines
828-853): an IF/ELSIF chain on the fetched subscription status, falling
through to the local trial evaluation; it returns
(account_status, has_access, access_level). -/
def sync_user_state_enterprise (subStatus : Option SubStatus) (trial : Option UserTrial)
    (now : Int) : EntAccountStatus × Bool × EntAccessLevel :=
  match subStatus with
  | some SubStatus.active => (EntAccountStatus.subscription_active, true, EntAccessLevel.pro)
  | some SubStatus.trialing => (EntAccountStatus.subscription_trialing, true, EntAccessLevel.pro)
  | some SubStatus.past_due =>
      (EntAccountStatus.subscription_past_due, false, EntAccessLevel.suspended)
  | some SubStatus.canceled =>
      (EntAccountStatus.subscription_canceled, false, EntAccessLevel.trial)
  | _ =>
      match trial with
      | some t =>
          if t.trial_status = TrialStatus.active ∧ now < t.trial_end_date then
            (EntAccountStatus.trial_active, true, EntAccessLevel.trial)
          else (EntAccountStatus.trial_expired, false, EntAccessLevel.suspended)
      | none => (EntAccountStatus.trial_expired, false, EntAccessLevel.suspended)

/-- The local trial evaluation the classifier falls through to when no
billing arm matches. -/
def trial_fallback (trial : Option UserTrial) (now : Int) :
    EntAccountStatus × Bool × EntAccessLevel :=
  match trial with
  | some t =>
      if t.trial_status = TrialStatus.active ∧ now < t.trial_end_date then
        (EntAccountStatus.trial_active, true, EntAccessLevel.trial)
      else (EntAccountStatus.trial_expired, false, EntAccessLevel.suspended)
  | none => (EntAccountStatus.trial_expired, false, EntAccessLevel.suspended)

/-- The transitions `trial_status` is allowed to take according to the
specification: along active to expired to scheduled_for_deletion, or from
any non-converted state to converted_to_paid. -/
def AllowedMove : TrialStatus → TrialStatus → Prop
  | TrialStatus.active, TrialStatus.expired => True
  | TrialStatus.active, TrialStatus.converted_to_paid => True
  | TrialStatus.expired, TrialStatus.scheduled_for_deletion => True
  | TrialStatus.expired, TrialStatus.converted_to_paid => True
  | TrialStatus.scheduled_for_deletion, TrialStatus.converted_to_paid => True
  | _, _ => False

/-- One trial-row step respects the specification's state machine: the
status either stays put or takes an allowed move, `converted_to_paid` is
never left, the deletion schedule is cleared on conversion, and a deletion
schedule value appears only on entry into `expired`. -/
def TrialStepOK (t t' : UserTrial) : Prop :=
  (t'.trial_status = t.trial_status ∨ AllowedMove t.trial_status t'.trial_status) ∧
  (t.trial_status = TrialStatus.converted_to_paid →
    t'.trial_status = TrialStatus.converted_to_paid) ∧
  (t.trial_status ≠ TrialStatus.converted_to_paid →
    t'.trial_status = TrialStatus.converted_to_paid →
    t'.deletion_scheduled_at = none) ∧
  (∀ v, t'.deletion_scheduled_at = some v →
    t.deletion_scheduled_at = some v ∨
      (t'.trial_status = TrialStatus.expired ∧ t.trial_status = TrialStatus.active))

section Helpers

/-- Mapping an idempotent function twice over a list equals mapping it
once. -/
theorem map_idem {α : Type} (f : α → α) (hf : ∀ a, f (f a) = f a) :
    ∀ l : List α, (l.map f).map f = l.map f := by
  intro l
  induction l with
  | nil => rfl
  | cons a l ih => simp [hf, ih]

/-- A reconciliation pass never rewrites the user identifier of a trial
row. -/
theorem check_row_user_id (cs : List StripeCustomer) (ss : List StripeSubscription)
    (now : Int) (t : UserTrial) : (check_row cs ss now t).user_id = t.user_id := by
  unfold check_row sync_subscription_status protect_paying_customers
    convert_paid_update expire_update schedule_deletion_update
  split_ifs <;> rfl

/-- A reconciliation pass never rewrites the trial end date of a trial
row. -/
theorem check_row_end_date (cs : List StripeCustomer) (ss : List StripeSubscription)
    (now : Int) (t : UserTrial) : (check_row cs ss now t).trial_end_date = t.trial_end_date := by
  unfold check_row sync_subscription_status protect_paying_customers
    convert_paid_update expire_update schedule_deletion_update
  split_ifs <;> rfl

/-- Applying the trial-table pass of `check_expired_trials` twice at the
same instant changes nothing the first application did not already
establish. -/
theorem check_row_idem (cs : List StripeCustomer) (ss : List StripeSubscription)
    (now : Int) (t : UserTrial) :
    check_row cs ss now (check_row cs ss now t) = check_row cs ss now t := by
  obtain ⟨u, e, st, d, up⟩ := t
  have hnd : ¬ (now + daySecs < now) := by unfold daySecs; omega
  by_cases hs : HasActiveSubscription cs ss u
  · cases st <;>
      simp [check_row, sync_subscription_status, protect_paying_customers,
        convert_paid_update, expire_update, schedule_deletion_update, hs]
  · by_cases hu : u = superAdminId
    · subst hu
      cases st <;>
        simp [check_row, sync_subscription_status, protect_paying_customers,
          convert_paid_update, expire_update, schedule_deletion_update, hs]
    · cases st with
      | active =>
        by_cases he : e < now
        · simp [check_row, sync_subscription_status, protect_paying_customers,
            convert_paid_update, expire_update, schedule_deletion_update,
            hs, hu, he, hnd, optLt]
        · simp [check_row, sync_subscription_status, protect_paying_customers,
            convert_paid_update, expire_update, schedule_deletion_update,
            hs, hu, he]
      | expired =>
        cases d with
        | none =>
          simp [check_row, sync_subscription_status, protect_paying_customers,
            convert_paid_update, expire_update, schedule_deletion_update,
            hs, hu, optLt]
        | some dv =>
          by_cases hdv : dv < now
          · simp [check_row, sync_subscription_status, protect_paying_customers,
              convert_paid_update, expire_update, schedule_deletion_update,
              hs, hu, hdv, optLt]
          · simp [check_row, sync_subscription_status, protect_paying_customers,
              convert_paid_update, expire_update, schedule_deletion_update,
              hs, hu, hdv, optLt]
      | converted_to_paid =>
        simp [check_row, sync_subscription_status, protect_paying_customers,
          convert_paid_update, expire_update, schedule_deletion_update, hs]
      | scheduled_for_deletion =>
        simp [check_row, sync_subscription_status, protect_paying_customers,
          convert_paid_update, expire_update, schedule_deletion_update, hs]

/-- A user with an active subscription ends every reconciliation pass with
a converted trial. -/
theorem check_row_converted_of_sub (cs : List StripeCustomer) (ss : List StripeSubscription)
    (now : Int) (t : UserTrial) (h : HasActiveSubscription cs ss t.user_id) :
    (check_row cs ss now t).trial_status = TrialStatus.converted_to_paid := by
  obtain ⟨u, e, st, d, up⟩ := t
  cases st <;>
    simp only [check_row, sync_subscription_status, protect_paying_customers,
      convert_paid_update, expire_update, schedule_deletion_update, h, optLt,
      ne_eq, not_false_eq_true, not_true_eq_false, and_true, and_false, true_and,
      false_and, and_self, or_self, or_false, false_or, if_true, if_false,
      reduceCtorEq, ite_false, ite_true]

/-- The accumulator step of `latest_subscription` keeps the accumulator or
replaces it with the new element. -/
theorem newer_cases (best : Option StripeSubscription) (s : StripeSubscription) :
    newer best s = best ∨ newer best s = some s := by
  cases best with
  | none => exact Or.inr rfl
  | some b =>
    by_cases h : b.created_at < s.created_at
    · exact Or.inr (by simp [newer, h])
    · exact Or.inl (by simp [newer, h])

/-- A subscription produced by folding `newer` comes from the accumulator or
from the list. -/
theorem foldl_newer_mem :
    ∀ (l : List StripeSubscription) (acc : Option StripeSubscription)
      (x : StripeSubscription), l.foldl newer acc = some x → acc = some x ∨ x ∈ l := by
  intro l
  induction l with
  | nil => intro acc x h; exact Or.inl h
  | cons s rest ih =>
    intro acc x h
    rw [List.foldl_cons] at h
    rcases ih (newer acc s) x h with h1 | h2
    · rcases newer_cases acc s with h3 | h3
      · rw [h3] at h1
        exact Or.inl h1
      · rw [h3] at h1
        injection h1 with h4
        subst h4
        exact Or.inr (List.mem_cons_self _ _)
    · exact Or.inr (List.mem_cons_of_mem _ h2)

/-- The latest subscription of a customer is one of the customer's live
subscription rows. -/
theorem latest_subscription_spec (ss : List StripeSubscription) (cid : Nat)
    (s : StripeSubscription) (h : latest_subscription ss cid = some s) :
    s ∈ ss ∧ s.customer_id = cid ∧ s.deleted_at = none := by
  unfold latest_subscription at h
  rcases foldl_newer_mem _ none s h with h1 | h2
  · cases h1
  · obtain ⟨hmem, hp⟩ := List.mem_filter.mp h2
    simp only [Bool.and_eq_true, decide_eq_true_eq, Option.isNone_iff_eq_none] at hp
    exact ⟨hmem, hp.1, hp.2⟩

/-- Looking a user up by identifier commutes with mapping a row function
that preserves identifiers. -/
theorem find?_map_user_id (f : UserTrial → UserTrial)
    (hf : ∀ t, (f t).user_id = t.user_id) (u : Nat) :
    ∀ l : List UserTrial,
      (l.map f).find? (fun t => decide (t.user_id = u)) =
        (l.find? fun t => decide (t.user_id = u)).map f := by
  intro l
  induction l with
  | nil => rfl
  | cons a l ih =>
    by_cases h : a.user_id = u
    · rw [List.map_cons,
        List.find?_cons_of_pos _ (by simp [hf, h]),
        List.find?_cons_of_pos _ (by simp [h])]
      rfl
    · rw [List.map_cons,
        List.find?_cons_of_neg _ (by simp [hf, h]),
        List.find?_cons_of_neg _ (by simp [h])]
      exact ih

/-- If the first customer row matching an identifier is live, it is also the
first row matching the identifier-and-live predicate. -/
theorem find?_live_customer (l : List StripeCustomer) (cid : Nat) (c : StripeCustomer)
    (h : l.find? (fun x => decide (x.customer_id = cid)) = some c)
    (hd : c.deleted_at = none) :
    l.find? (fun x => decide (x.customer_id = cid) && x.deleted_at.isNone) = some c := by
  induction l with
  | nil => simp at h
  | cons a l ih =>
    by_cases hp : a.customer_id = cid
    · rw [List.find?_cons_of_pos _ (by simp [hp])] at h
      injection h with h2
      subst h2
      rw [List.find?_cons_of_pos _ (by simp [hp, hd])]
    · rw [List.find?_cons_of_neg _ (by simp [hp])] at h
      rw [List.find?_cons_of_neg _ (by simp [hp])]
      exact ih h

/-- Rewriting the derived row of a user twice from the same inputs equals
rewriting it once. -/
theorem sync_user_state_idem (cs : List StripeCustomer) (ss : List StripeSubscription)
    (trials : List UserTrial) (now : Int) (uid : Nat)
    (accounts : List UserAccountState) :
    sync_user_state cs ss trials now uid (sync_user_state cs ss trials now uid accounts) =
      sync_user_state cs ss trials now uid accounts := by
  simp only [sync_user_state]
  rw [List.map_map]
  apply List.map_congr_left
  intro a _
  by_cases h : a.user_id = uid <;> simp [Function.comp, h]

/-- Closed form of one reconciliation run: the trial table gets the
row-level `check_expired_trials` pass and the derived row is recomputed
from the updated trials. -/
theorem reconcile_user_def (now : Int) (uid : Nat) (db : DB) :
    reconcile_user now uid db =
      { db with
        trials := db.trials.map (check_row db.customers db.subscriptions now),
        accounts := sync_user_state db.customers db.subscriptions
          (db.trials.map (check_row db.customers db.subscriptions now)) now uid
          db.accounts } := by
  obtain ⟨tr, ac, cs, ss, ax⟩ := db
  have hmaps : List.map (schedule_deletion_update cs ss now ∘ expire_update cs ss now ∘
      convert_paid_update cs ss now ∘ protect_paying_customers cs ss now) tr =
      List.map (check_row cs ss now) tr :=
    List.map_congr_left fun t _ => rfl
  simp [reconcile_user, sync_user_state_db, check_expired_trials_db,
    sync_subscription_status_db, protect_paying_customers_db, List.map_map,
    check_row, sync_subscription_status, Function.comp, hmaps]

/-- A reconciliation run with the error path either aborts on the
enum-cast condition or produces exactly the total model's result. -/
theorem reconcile_user_run_eq (now : Int) (uid : Nat) (db : DB) :
    reconcile_user_run now uid db =
      if sync_user_state_raises db.customers db.subscriptions uid then none
      else some (reconcile_user now uid db) := by
  obtain ⟨tr, ac, cs, ss, ax⟩ := db
  by_cases h : sync_user_state_raises cs ss uid = true
  · simp [reconcile_user_run, sync_user_state_run, check_expired_trials_db,
      sync_subscription_status_db, protect_paying_customers_db, h]
  · simp only [Bool.not_eq_true] at h
    simp [reconcile_user_run, sync_user_state_run, check_expired_trials_db,
      sync_subscription_status_db, protect_paying_customers_db, h,
      reconcile_user, sync_user_state_db]

/-- A user whose latest live subscription is active or trialing gets
`has_access = true` from `sync_user_state`. -/
theorem sync_user_state_access_of_latest (cs : List StripeCustomer)
    (ss : List StripeSubscription) (trials : List UserTrial) (now : Int) (uid : Nat)
    (accounts : List UserAccountState) (c : StripeCustomer) (s : StripeSubscription)
    (hc : cs.find? (fun x => decide (x.user_id = uid)) = some c)
    (hl : latest_subscription ss c.customer_id = some s)
    (hst : s.status = SubStatus.active ∨ s.status = SubStatus.trialing) :
    ∀ a ∈ sync_user_state cs ss trials now uid accounts,
      a.user_id = uid → a.has_access = true := by
  intro a ha hu
  simp only [sync_user_state] at ha
  obtain ⟨a0, _, heq⟩ := List.mem_map.mp ha
  by_cases h : a0.user_id = uid
  · rw [← heq]
    rcases hst with h1 | h1 <;> simp [h, hc, hl, h1]
  · rw [← heq] at hu
    simp [h] at hu

/-- A user whose looked-up trial still has a positive day count gets
`has_access = true` from `sync_user_state`. -/
theorem sync_user_state_access_of_days (cs : List StripeCustomer)
    (ss : List StripeSubscription) (trials : List UserTrial) (now : Int) (uid : Nat)
    (accounts : List UserAccountState)
    (hd : 0 < trial_days_left (trials.find? fun t => decide (t.user_id = uid)) now) :
    ∀ a ∈ sync_user_state cs ss trials now uid accounts,
      a.user_id = uid → a.has_access = true := by
  intro a ha hu
  simp only [sync_user_state] at ha
  obtain ⟨a0, _, heq⟩ := List.mem_map.mp ha
  by_cases h : a0.user_id = uid
  · rw [← heq]
    simp [h, hd]
  · rw [← heq] at hu
    simp [h] at hu

end Helpers

/-- C9: reconciliation is idempotent: running `check_expired_trials`
followed by `sync_user_state` twice in succession at the same instant, with
no intervening change to the trial, billing, or workspace inputs, produces
exactly the state the first run already established. -/
theorem reconcile_user_idempotent (now : Int) (uid : Nat) (db : DB) :
    reconcile_user now uid (reconcile_user now uid db) = reconcile_user now uid db := by
  obtain ⟨tr, ac, cs, ss, ax⟩ := db
  have hrow : ∀ t, check_row cs ss now (check_row cs ss now t) = check_row cs ss now t :=
    check_row_idem cs ss now
  have htr : (tr.map (check_row cs ss now)).map (check_row cs ss now) =
      tr.map (check_row cs ss now) := map_idem _ hrow tr
  simp only [reconcile_user_def]
  simp [htr, sync_user_state_idem]

/-- C10: `sync_user_state` writes only the derived `user_account_state`
rows: it leaves `user_trials`, `stripe_customers`, `stripe_subscriptions`
and `axie_studio_accounts` untouched, so the per-user reconciliation the
subscription-change trigger performs leaves the trial state machine
unchanged. -/
theorem sync_user_state_frame (now : Int) (uid : Nat) (s : StripeSubscription) (db : DB) :
    (sync_user_state_db now uid db).trials = db.trials ∧
    (sync_user_state_db now uid db).customers = db.customers ∧
    (sync_user_state_db now uid db).subscriptions = db.subscriptions ∧
    (sync_user_state_db now uid db).axie_accounts = db.axie_accounts ∧
    (∀ a ∈ db.accounts, a.user_id ≠ uid → a ∈ (sync_user_state_db now uid db).accounts) ∧
    (on_subscription_change_final now s db).trials = db.trials := by
  refine ⟨rfl, rfl, rfl, rfl, ?_, ?_⟩
  · intro a ha hne
    show a ∈ sync_user_state db.customers db.subscriptions db.trials now uid db.accounts
    simp only [sync_user_state]
    refine List.mem_map.mpr ⟨a, ha, ?_⟩
    simp [hne]
  · unfold on_subscription_change_final
    cases h : db.customers.find? fun c => decide (c.customer_id = s.customer_id) <;> rfl

/-- C1: every row selected by the Deletion Sweeper's
`get_users_for_deletion` is `scheduled_for_deletion`, is not the protected
administrative identity, has no live billing linkage with an active or
trialing subscription (so no user whose live billing status is active or
trialing is ever selected), and its trial end date lies more than one day in
the past. -/
theorem get_users_for_deletion_sound (cs : List StripeCustomer)
    (ss : List StripeSubscription) (now : Int) (trials : List UserTrial)
    (t : UserTrial) (ht : t ∈ get_users_for_deletion cs ss now trials) :
    t.trial_status = TrialStatus.scheduled_for_deletion ∧
    t.user_id ≠ superAdminId ∧
    (∀ c ∈ cs, c.user_id = t.user_id → c.deleted_at = none →
      ∀ s ∈ ss, s.customer_id = c.customer_id → s.deleted_at = none →
        s.status ≠ SubStatus.active ∧ s.status ≠ SubStatus.trialing) ∧
    t.trial_end_date < now - daySecs := by
  unfold get_users_for_deletion at ht
  obtain ⟨hmem, hp⟩ := List.mem_filter.mp ht
  rw [decide_eq_true_eq] at hp
  obtain ⟨h1, h2, h3, h4⟩ := hp
  refine ⟨h1, h2, ?_, h4⟩
  intro c hc hcuid hcdel s hs hscid hsdel
  constructor
  · intro hstat
    exact h3 ⟨c, hc, hcuid, hcdel, s, hs, hscid, hsdel, Or.inl hstat⟩
  · intro hstat
    exact h3 ⟨c, hc, hcuid, hcdel, s, hs, hscid, hsdel, Or.inr hstat⟩

/-- A concrete scheduled-for-deletion row selected by the sweeper. -/
def trialW : UserTrial :=
  ⟨1, 0, TrialStatus.scheduled_for_deletion, some 5, 0⟩

/-- Witness for C1 at a concrete state: the row is selected and the
soundness conclusions hold for it. -/
theorem get_users_for_deletion_sound_witness :
    trialW ∈ get_users_for_deletion [] [] 200000 [trialW] ∧
    trialW.trial_status = TrialStatus.scheduled_for_deletion ∧
    trialW.user_id ≠ superAdminId ∧
    trialW.trial_end_date < 200000 - daySecs :=
  ⟨by decide,
   (get_users_for_deletion_sound [] [] 200000 [trialW] trialW (by decide)).1,
   (get_users_for_deletion_sound [] [] 200000 [trialW] trialW (by decide)).2.1,
   (get_users_for_deletion_sound [] [] 200000 [trialW] trialW (by decide)).2.2.2⟩

/-- C7: the Protection Guard `verify_user_protection` returns true exactly
when the user is the fixed administrative identity or holds a billing
linkage with a live active or trialing subscription, and false for every
other input. -/
theorem verify_user_protection_iff_spec (cs : List StripeCustomer)
    (ss : List StripeSubscription) (uid : Nat) :
    verify_user_protection cs ss uid = true ↔ IsProtectedSpec cs ss uid := by
  unfold verify_user_protection IsProtectedSpec
  split_ifs with h
  · simp [h]
  · simp only [h, false_or]
    simp [List.any_eq_true, Option.isNone_iff_eq_none]
    constructor
    · rintro ⟨c, hc, hcu, s, hs, ⟨h1, h2⟩, h3⟩
      exact ⟨c, hc, hcu, s, hs, h1, h2, h3⟩
    · rintro ⟨c, hc, hcu, s, hs, h1, h2, h3⟩
      exact ⟨c, hc, hcu, s, hs, ⟨h1, h2⟩, h3⟩

/-- An admin database state whose trial end date lies in the past: the claim
that reconciliation always yields `has_access = true` for the protected
identity fails here. -/
def dbAdminC2 : DB :=
  ⟨[⟨superAdminId, 0, TrialStatus.active, none, 0⟩],
   [⟨superAdminId, AccountStatus.active, AccessLevel.enterprise, true, 999999, none, 0⟩],
   [], [], []⟩

/-- C2 counterexample: for the protected identity with an expired trial end
date and no billing rows, a reconciliation run leaves `has_access = false`
in the derived state (the trial status is, as claimed, not transitioned). -/
theorem admin_access_claim_counterexample :
    ((reconcile_user 200000 superAdminId dbAdminC2).accounts.map fun a => a.has_access) =
      [false] ∧
    ((reconcile_user 200000 superAdminId dbAdminC2).trials.map fun t => t.trial_status) =
      [TrialStatus.active] := by
  decide

/-- C2 amended: the protected identity is never transitioned into `expired`
or `scheduled_for_deletion`, for all trial and billing inputs; and every
completed reconciliation run (`sync_user_state` aborts on the 'none'
enum-cast error, writing nothing, when the user has a customer row but no
live subscription) leaves the derived `has_access = true` whenever the admin
trial's end date lies at least one day in the future, which the
initialization's 100-year end date guarantees. -/
theorem admin_protection_amended (db : DB) (now : Int) :
    (∀ t ∈ db.trials, t.user_id = superAdminId →
      ((check_row db.customers db.subscriptions now t).trial_status = TrialStatus.expired →
        t.trial_status = TrialStatus.expired) ∧
      ((check_row db.customers db.subscriptions now t).trial_status =
          TrialStatus.scheduled_for_deletion →
        t.trial_status = TrialStatus.scheduled_for_deletion)) ∧
    (∀ t : UserTrial, ∀ db' : DB,
      reconcile_user_run now superAdminId db = some db' →
      db.trials.find? (fun x => decide (x.user_id = superAdminId)) = some t →
      now + daySecs ≤ t.trial_end_date →
      ∀ a ∈ db'.accounts, a.user_id = superAdminId → a.has_access = true) := by
  constructor
  · intro t _ htu
    have key : (check_row db.customers db.subscriptions now t).trial_status = t.trial_status ∨
        (check_row db.customers db.subscriptions now t).trial_status =
          TrialStatus.converted_to_paid := by
      obtain ⟨u, e, st, d, up⟩ := t
      replace htu : u = superAdminId := htu
      subst htu
      by_cases hs : HasActiveSubscription db.customers db.subscriptions superAdminId <;>
        cases st <;>
          simp [check_row, sync_subscription_status, protect_paying_customers,
            convert_paid_update, expire_update, schedule_deletion_update, hs]
    constructor
    · intro hres
      rcases key with h | h
      · rw [← h]; exact hres
      · rw [hres] at h; cases h
    · intro hres
      rcases key with h | h
      · rw [← h]; exact hres
      · rw [hres] at h; cases h
  · intro t db' hrun hfind hend a ha hauid
    rw [reconcile_user_run_eq] at hrun
    by_cases hr : sync_user_state_raises db.customers db.subscriptions superAdminId = true
    · rw [if_pos hr] at hrun
      cases hrun
    · rw [if_neg hr] at hrun
      injection hrun with hdb
      subst hdb
      rw [reconcile_user_def] at ha
      have hdays : 0 < trial_days_left
          ((db.trials.map (check_row db.customers db.subscriptions now)).find?
            fun x => decide (x.user_id = superAdminId)) now := by
        rw [find?_map_user_id (check_row db.customers db.subscriptions now)
          (check_row_user_id db.customers db.subscriptions now) superAdminId db.trials, hfind]
        simp only [Option.map_some', trial_days_left]
        rw [check_row_end_date]
        have h1 : now < t.trial_end_date := by unfold daySecs at hend; omega
        rw [if_pos h1]
        apply Nat.div_pos ?_ (by norm_num)
        unfold daySecs at hend
        omega
      exact sync_user_state_access_of_days db.customers db.subscriptions _ now superAdminId
        db.accounts hdays a ha hauid

/-- An admin state whose trial end date is one day ahead. -/
def dbAdminW : DB :=
  ⟨[⟨superAdminId, 86405, TrialStatus.active, none, 0⟩],
   [⟨superAdminId, AccountStatus.active, AccessLevel.enterprise, true, 999999, none, 0⟩],
   [], [], []⟩

/-- The admin trial row of `dbAdminW`. -/
def tAdminW : UserTrial := ⟨superAdminId, 86405, TrialStatus.active, none, 0⟩

/-- The derived admin row after reconciling `dbAdminW` at instant 5. -/
def aAdminW : UserAccountState :=
  ⟨superAdminId, AccountStatus.trial, AccessLevel.trial, true, 1, none, 5⟩

/-- The reconciled state of `dbAdminW` at instant 5. -/
def dbAdminWrun : DB :=
  ⟨[tAdminW],
   [aAdminW],
   [], [], []⟩

/-- Witness for the amended C2 at a concrete admin state. -/
theorem admin_protection_amended_witness : aAdminW.has_access = true :=
  (admin_protection_amended dbAdminW 5).2 tAdminW dbAdminWrun (by decide) (by decide)
    (by decide) aAdminW (by decide) (by decide)

/-- A live customer row for user 1. -/
def cC3 : StripeCustomer := ⟨1, 10, none⟩

/-- An older live active subscription of customer 10. -/
def sOldActive : StripeSubscription := ⟨10, SubStatus.active, none, 1⟩

/-- A newer live canceled subscription of customer 10. -/
def sNewCanceled : StripeSubscription := ⟨10, SubStatus.canceled, none, 2⟩

/-- A state where user 1 holds a live active subscription next to a newer
canceled one, with an exhausted trial clock. -/
def dbC3 : DB :=
  ⟨[⟨1, -100, TrialStatus.active, none, 0⟩],
   [⟨1, AccountStatus.trial, AccessLevel.trial, true, 7, none, 0⟩],
   [cC3], [sOldActive, sNewCanceled], []⟩

/-- C3 counterexample: user 1 holds a live (non-soft-deleted) active
subscription, the reconciliation run completes (no enum-cast error) and
converts the trial as claimed, yet the derived `has_access` is false
because `sync_user_state` consults only the most recently created
subscription, which is the canceled one. -/
theorem active_subscription_access_counterexample :
    cC3 ∈ dbC3.customers ∧ cC3.user_id = 1 ∧ cC3.deleted_at = none ∧
    sOldActive ∈ dbC3.subscriptions ∧ sOldActive.customer_id = cC3.customer_id ∧
    sOldActive.deleted_at = none ∧ sOldActive.status = SubStatus.active ∧
    ((reconcile_user_run 0 1 dbC3).map fun d => d.trials.map fun t => t.trial_status) =
      some [TrialStatus.converted_to_paid] ∧
    ((reconcile_user_run 0 1 dbC3).map fun d => d.accounts.map fun a => a.has_access) =
      some [false] := by
  decide

/-- C3 amended: every completed reconciliation run converts the trial of
every user holding a live active or trialing billing linkage, regardless of
prior trial status; the derived `has_access` is true provided additionally
the user's most recently created live subscription is the active or
trialing one (in particular whenever the user has exactly one live
subscription), since `sync_user_state` consults only that latest row. -/
theorem active_subscription_reconcile_amended (db : DB) (now : Int) (uid : Nat)
    (db' : DB) (hrun : reconcile_user_run now uid db = some db') :
    (HasActiveSubscription db.customers db.subscriptions uid →
      ∀ t ∈ db'.trials, t.user_id = uid →
        t.trial_status = TrialStatus.converted_to_paid) ∧
    (∀ c s, db.customers.find? (fun x => decide (x.user_id = uid)) = some c →
      latest_subscription db.subscriptions c.customer_id = some s →
      (s.status = SubStatus.active ∨ s.status = SubStatus.trialing) →
      ∀ a ∈ db'.accounts, a.user_id = uid → a.has_access = true) := by
  rw [reconcile_user_run_eq] at hrun
  by_cases hr : sync_user_state_raises db.customers db.subscriptions uid = true
  · rw [if_pos hr] at hrun
    cases hrun
  · rw [if_neg hr] at hrun
    injection hrun with hdb
    subst hdb
    constructor
    · intro hsub t ht htu
      rw [reconcile_user_def] at ht
      obtain ⟨t0, _, heq⟩ := List.mem_map.mp ht
      subst heq
      rw [check_row_user_id] at htu
      apply check_row_converted_of_sub
      rw [htu]
      exact hsub
    · intro c s hc hl hst a ha hauid
      rw [reconcile_user_def] at ha
      exact sync_user_state_access_of_latest db.customers db.subscriptions _ now uid
        db.accounts c s hc hl hst a ha hauid

/-- A state where user 1 has one live active subscription and a trial
already marked for deletion. -/
def dbC3W : DB :=
  ⟨[⟨1, -100, TrialStatus.scheduled_for_deletion, some (-50), 0⟩],
   [⟨1, AccountStatus.expired, AccessLevel.none, false, 0, none, 0⟩],
   [cC3], [sOldActive], []⟩

/-- The rescued trial row after reconciling `dbC3W` at instant 0. -/
def tC3W : UserTrial := ⟨1, -100, TrialStatus.converted_to_paid, none, 0⟩

/-- The derived row after reconciling `dbC3W` at instant 0. -/
def aC3W : UserAccountState :=
  ⟨1, AccountStatus.active, AccessLevel.pro, true, 0, some SubStatus.active, 0⟩

/-- The completed reconciliation of `dbC3W` at instant 0. -/
def dbC3Wrun : DB := ⟨[tC3W], [aC3W], [cC3], [sOldActive], []⟩

/-- Witness for the amended C3 at a concrete paying-user state. -/
theorem active_subscription_reconcile_amended_witness :
    tC3W.trial_status = TrialStatus.converted_to_paid ∧ aC3W.has_access = true :=
  ⟨(active_subscription_reconcile_amended dbC3W 0 1 dbC3Wrun (by decide)).1 (by decide)
      tC3W (by decide) (by decide),
   (active_subscription_reconcile_amended dbC3W 0 1 dbC3Wrun (by decide)).2 cC3 sOldActive
      (by decide) (by decide) (by decide) aC3W (by decide) (by decide)⟩

/-- The active subscription row arriving for customer 10. -/
def sNewC4 : StripeSubscription := ⟨10, SubStatus.active, none, 1⟩

/-- A state whose trial for user 1 is already marked for deletion when the
active subscription arrives. -/
def dbC4 : DB :=
  ⟨[⟨1, -100, TrialStatus.scheduled_for_deletion, some (-50), 0⟩],
   [⟨1, AccountStatus.expired, AccessLevel.none, false, 0, none, 0⟩],
   [cC3], [sNewC4], []⟩

/-- A state like `dbC4` whose customer also has a newer live canceled
subscription next to the older `sOldActive` row. -/
def dbC4b : DB :=
  ⟨[⟨1, -100, TrialStatus.scheduled_for_deletion, some (-50), 0⟩],
   [⟨1, AccountStatus.expired, AccessLevel.none, false, 0, none, 0⟩],
   [cC3], [sOldActive, sNewCanceled], []⟩

/-- C4 counterexample, two scenarios: in the FINAL variant the trigger runs
`sync_user_state` only, so the rescued user's trial row keeps
`trial_status = scheduled_for_deletion` and its non-null
`deletion_scheduled_at`; and when the arriving active row (an older
subscription updated to active) sits beside a newer live canceled one, the
completed trigger run even writes `has_access = false` — both contrary to
the claimed synchronous output. -/
theorem subscription_trigger_rescue_counterexample :
    sNewC4.status = SubStatus.active ∧
    (dbC4.trials.map fun t => t.trial_status) = [TrialStatus.scheduled_for_deletion] ∧
    ((on_subscription_change_final_run 0 sNewC4 dbC4).map
        fun d => d.trials.map fun t => t.trial_status) =
      some [TrialStatus.scheduled_for_deletion] ∧
    ((on_subscription_change_final_run 0 sNewC4 dbC4).map
        fun d => d.trials.map fun t => t.deletion_scheduled_at) =
      some [some (-50)] ∧
    sOldActive.status = SubStatus.active ∧ sOldActive.deleted_at = none ∧
    ((on_subscription_change_final_run 0 sOldActive dbC4b).map
        fun d => d.accounts.map fun a => a.has_access) =
      some [false] := by
  decide

/-- C4 amended: when a subscription row with status active or trialing is
inserted or updated, the COMPLETE variant of the trigger synchronously
rewrites the user's trial to `converted_to_paid` with
`deletion_scheduled_at = null`; the FINAL variant never touches the trial
table — every completed trigger run leaves `user_trials` unchanged — and
synchronously recomputes only the derived state, which gets
`has_access = true` provided the user's most recently created live
subscription is the active or trialing one; no single variant produces the
full claimed output for every arriving active subscription. -/
theorem subscription_trigger_rescue_amended (db : DB) (now : Int)
    (s : StripeSubscription) (c : StripeCustomer)
    (hst : s.status = SubStatus.active ∨ s.status = SubStatus.trialing)
    (hc : db.customers.find? (fun x => decide (x.customer_id = s.customer_id)) = some c)
    (hcd : c.deleted_at = none) :
    (∀ t ∈ (on_subscription_change_complete now s db).trials, t.user_id = c.user_id →
      t.trial_status = TrialStatus.converted_to_paid ∧
      t.deletion_scheduled_at = none) ∧
    (∀ db' : DB, on_subscription_change_final_run now s db = some db' →
      db'.trials = db.trials) ∧
    (∀ s', db.customers.find? (fun x => decide (x.user_id = c.user_id)) = some c →
      latest_subscription db.subscriptions c.customer_id = some s' →
      (s'.status = SubStatus.active ∨ s'.status = SubStatus.trialing) →
      ∀ db' : DB, on_subscription_change_final_run now s db = some db' →
      ∀ a ∈ db'.accounts, a.user_id = c.user_id → a.has_access = true) := by
  have hcfull := find?_live_customer db.customers s.customer_id c hc hcd
  refine ⟨?_, ?_, ?_⟩
  · intro t ht htu
    unfold on_subscription_change_complete at ht
    rw [if_pos hst, hcfull] at ht
    obtain ⟨t0, _, heq⟩ := List.mem_map.mp ht
    subst heq
    by_cases h : t0.user_id = c.user_id
    · simp [h, mark_trial_converted]
    · simp [h] at htu
  · intro db' hrun
    unfold on_subscription_change_final_run at hrun
    simp only [hc] at hrun
    cases hmatch : sync_user_state_run db.customers db.subscriptions db.trials now
        c.user_id db.accounts with
    | none =>
      rw [hmatch] at hrun
      cases hrun
    | some accounts =>
      rw [hmatch] at hrun
      simp only [Option.map_some', Option.some.injEq] at hrun
      subst hrun
      rfl
  · intro s' hcu hl hst' db' hrun a ha hauid
    unfold on_subscription_change_final_run at hrun
    simp only [hc] at hrun
    have hr : sync_user_state_raises db.customers db.subscriptions c.user_id = false := by
      simp [sync_user_state_raises, hcu, hl]
    unfold sync_user_state_run at hrun
    rw [hr] at hrun
    simp only [Bool.false_eq_true, if_false, Option.map_some', Option.some.injEq] at hrun
    subst hrun
    exact sync_user_state_access_of_latest db.customers db.subscriptions db.trials now
      c.user_id db.accounts c s' hcu hl hst' a ha hauid

/-- The rescued trial row the COMPLETE trigger produces from `dbC4`. -/
def tC4W : UserTrial := ⟨1, -100, TrialStatus.converted_to_paid, none, 0⟩

/-- The derived row the FINAL trigger produces from `dbC4` at instant 0. -/
def aC4W : UserAccountState :=
  ⟨1, AccountStatus.active, AccessLevel.pro, true, 0, some SubStatus.active, 0⟩

/-- The state the FINAL trigger's completed run produces from `dbC4`. -/
def dbC4run : DB :=
  ⟨[⟨1, -100, TrialStatus.scheduled_for_deletion, some (-50), 0⟩],
   [aC4W], [cC3], [sNewC4], []⟩

/-- Witness for the amended C4 at a concrete rescued state. -/
theorem subscription_trigger_rescue_amended_witness :
    tC4W.trial_status = TrialStatus.converted_to_paid ∧
    tC4W.deletion_scheduled_at = none ∧
    dbC4run.trials = dbC4.trials ∧ aC4W.has_access = true := by
  have H := subscription_trigger_rescue_amended dbC4 0 sNewC4 cC3 (by decide)
    (by decide) (by decide)
  exact ⟨(H.1 tC4W (by decide) (by decide)).1, (H.1 tC4W (by decide) (by decide)).2,
    H.2.1 dbC4run (by decide),
    H.2.2 sNewC4 (by decide) (by decide) (by decide) dbC4run (by decide) aC4W (by decide)
      (by decide)⟩

/-- An unprotected active trial whose end date equals the current instant. -/
def tEdgeC5 : UserTrial := ⟨1, 50, TrialStatus.active, none, 0⟩

/-- C5 counterexample: at `trial_end_date = now` exactly (an end date at,
but not before, the current time) the reconciliation pass does not expire
the trial, because the SQL predicate is the strict
`trial_end_date < now()`. -/
theorem trial_expiry_boundary_counterexample :
    tEdgeC5.trial_status = TrialStatus.active ∧
    tEdgeC5.user_id ≠ superAdminId ∧
    ¬ HasActiveSubscription [] [] tEdgeC5.user_id ∧
    tEdgeC5.trial_end_date ≤ 50 ∧
    (check_row [] [] 50 tEdgeC5).trial_status ≠ TrialStatus.expired := by
  decide

/-- C5 amended: for a non-protected user with an active trial whose end
date is strictly before now, one reconciliation pass yields `expired` with
`deletion_scheduled_at = now + 1 day`; a pass marks `scheduled_for_deletion`
only when the prior state was `expired` with a deletion time already in the
past (hence at or after it); and no single pass takes a trial from `active`
to `scheduled_for_deletion`. -/
theorem trial_expiry_grace_amended (cs : List StripeCustomer)
    (ss : List StripeSubscription) (now : Int) (t : UserTrial)
    (hadmin : t.user_id ≠ superAdminId)
    (hsub : ¬ HasActiveSubscription cs ss t.user_id) :
    (t.trial_status = TrialStatus.active → t.trial_end_date < now →
      (check_row cs ss now t).trial_status = TrialStatus.expired ∧
      (check_row cs ss now t).deletion_scheduled_at = some (now + daySecs)) ∧
    ((check_row cs ss now t).trial_status = TrialStatus.scheduled_for_deletion →
      t.trial_status ≠ TrialStatus.scheduled_for_deletion →
      ∃ d, t.deletion_scheduled_at = some d ∧ d < now) ∧
    (t.trial_status = TrialStatus.active →
      (check_row cs ss now t).trial_status ≠ TrialStatus.scheduled_for_deletion) := by
  obtain ⟨u, e, st, d, up⟩ := t
  replace hadmin : u ≠ superAdminId := hadmin
  replace hsub : ¬ HasActiveSubscription cs ss u := hsub
  have hnd : ¬ (now + daySecs < now) := by unfold daySecs; omega
  cases st with
  | active =>
    by_cases he : e < now
    · simp [check_row, sync_subscription_status, protect_paying_customers,
        convert_paid_update, expire_update, schedule_deletion_update,
        hsub, hadmin, he, hnd, optLt]
    · simp [check_row, sync_subscription_status, protect_paying_customers,
        convert_paid_update, expire_update, schedule_deletion_update,
        hsub, hadmin, he]
  | expired =>
    cases d with
    | none =>
      simp [check_row, sync_subscription_status, protect_paying_customers,
        convert_paid_update, expire_update, schedule_deletion_update,
        hsub, hadmin, optLt]
    | some dv =>
      by_cases hdv : dv < now
      · simp [check_row, sync_subscription_status, protect_paying_customers,
          convert_paid_update, expire_update, schedule_deletion_update,
          hsub, hadmin, hdv, optLt]
      · simp [check_row, sync_subscription_status, protect_paying_customers,
          convert_paid_update, expire_update, schedule_deletion_update,
          hsub, hadmin, hdv, optLt]
  | converted_to_paid =>
    simp [check_row, sync_subscription_status, protect_paying_customers,
      convert_paid_update, expire_update, schedule_deletion_update, hsub]
  | scheduled_for_deletion =>
    simp [check_row, sync_subscription_status, protect_paying_customers,
      convert_paid_update, expire_update, schedule_deletion_update, hsub]

/-- An expired, unprotected trial two days past its end with no prior
deletion schedule. -/
def tGraceW : UserTrial := ⟨1, -172800, TrialStatus.active, none, 0⟩

/-- Witness for the amended C5: a trial two days past its end expires with
a one-day grace schedule on the first pass and is not yet marked for
deletion. -/
theorem trial_expiry_grace_amended_witness :
    (check_row [] [] 0 tGraceW).trial_status = TrialStatus.expired ∧
    (check_row [] [] 0 tGraceW).deletion_scheduled_at = some (0 + daySecs) ∧
    (check_row [] [] 0 tGraceW).trial_status ≠ TrialStatus.scheduled_for_deletion := by
  have H := trial_expiry_grace_amended [] [] 0 tGraceW (by decide) (by decide)
  exact ⟨(H.1 (by decide) (by decide)).1, (H.1 (by decide) (by decide)).2,
    H.2.2 (by decide)⟩

/-- An active, unexpired local trial (as seen from instant 0). -/
def tActiveC6 : UserTrial := ⟨1, 100, TrialStatus.active, none, 0⟩

/-- C6 counterexample: for billing status `canceled` with a still-active,
unexpired local trial, the enterprise classifier returns
`has_access = false`, not the claimed fallback to the trial evaluation. -/
theorem canceled_fallback_counterexample :
    tActiveC6.trial_status = TrialStatus.active ∧
    (0 : Int) < tActiveC6.trial_end_date ∧
    (sync_user_state_enterprise (some SubStatus.canceled) (some tActiveC6) 0).2.1 =
      false := by
  decide

/-- C6 amended: the classifier applies first-match precedence; `past_due`
yields suspended without access; `canceled` yields
`account_status = subscription_canceled` with `access_level = trial` but
`has_access = false` regardless of the trial; only `unpaid` (matched by no
billing arm) falls through to the local trial evaluation. -/
theorem classifier_precedence_amended (trial : Option UserTrial) (now : Int) :
    sync_user_state_enterprise (some SubStatus.past_due) trial now =
      (EntAccountStatus.subscription_past_due, false, EntAccessLevel.suspended) ∧
    sync_user_state_enterprise (some SubStatus.canceled) trial now =
      (EntAccountStatus.subscription_canceled, false, EntAccessLevel.trial) ∧
    sync_user_state_enterprise (some SubStatus.unpaid) trial now =
      trial_fallback trial now := by
  refine ⟨rfl, rfl, ?_⟩
  cases trial <;> rfl

/-- C8: every write the reconciler or its triggers perform on a trial row
respects the specification's transition system: moves only along
active to expired to scheduled_for_deletion or into converted_to_paid,
no exit from converted_to_paid, the deletion schedule cleared on conversion
and assigned only on entry into expired. -/
theorem trial_status_transition_invariant (cs : List StripeCustomer)
    (ss : List StripeSubscription) (now : Int) (t : UserTrial) :
    TrialStepOK t (protect_paying_customers cs ss now t) ∧
    TrialStepOK t (sync_subscription_status cs ss now t) ∧
    TrialStepOK t (check_row cs ss now t) ∧
    TrialStepOK t (mark_trial_converted now t) := by
  obtain ⟨u, e, st, d, up⟩ := t
  have hnd : ¬ (now + daySecs < now) := by unfold daySecs; omega
  by_cases hs : HasActiveSubscription cs ss u
  · cases st <;>
      simp [TrialStepOK, AllowedMove, check_row, sync_subscription_status,
        protect_paying_customers, convert_paid_update, expire_update,
        schedule_deletion_update, mark_trial_converted, hs, optLt]
  · by_cases hu : u = superAdminId
    · subst hu
      cases st <;>
        simp [TrialStepOK, AllowedMove, check_row, sync_subscription_status,
          protect_paying_customers, convert_paid_update, expire_update,
          schedule_deletion_update, mark_trial_converted, hs, optLt]
    · cases st with
      | active =>
        by_cases he : e < now
        · simp [TrialStepOK, AllowedMove, check_row, sync_subscription_status,
            protect_paying_customers, convert_paid_update, expire_update,
            schedule_deletion_update, mark_trial_converted, hs, hu, he, hnd, optLt]
        · simp [TrialStepOK, AllowedMove, check_row, sync_subscription_status,
            protect_paying_customers, convert_paid_update, expire_update,
            schedule_deletion_update, mark_trial_converted, hs, hu, he, optLt]
      | expired =>
        cases d with
        | none =>
          simp [TrialStepOK, AllowedMove, check_row, sync_subscription_status,
            protect_paying_customers, convert_paid_update, expire_update,
            schedule_deletion_update, mark_trial_converted, hs, hu, optLt]
        | some dv =>
          by_cases hdv : dv < now
          · simp [TrialStepOK, AllowedMove, check_row, sync_subscription_status,
              protect_paying_customers, convert_paid_update, expire_update,
              schedule_deletion_update, mark_trial_converted, hs, hu, hdv, optLt]
          · simp [TrialStepOK, AllowedMove, check_row, sync_subscription_status,
              protect_paying_customers, convert_paid_update, expire_update,
              schedule_deletion_update, mark_trial_converted, hs, hu, hdv, optLt]
      | converted_to_paid =>
        simp [TrialStepOK, AllowedMove, check_row, sync_subscription_status,
          protect_paying_customers, convert_paid_update, expire_update,
          schedule_deletion_update, mark_trial_converted, hs, optLt]
      | scheduled_for_deletion =>
        simp [TrialStepOK, AllowedMove, check_row, sync_subscription_status,
          protect_paying_customers, convert_paid_update, expire_update,
          schedule_deletion_update, mark_trial_converted, hs, optLt]

end Usermanagement

